import Mathlib

/-!
Verification of the concurrent mark phase of GHC's nonmoving garbage collector
(rts/sm/NonMovingMark.c), via a shallow embedding of its data structures and
operations.  Pointers are modelled as natural numbers; the pointer-tag strip
`UNTAG_CLOSURE` clears the low three bits.  A mark queue is a chain of blocks,
each holding up to `B` entries (`MARK_QUEUE_BLOCK_ENTRIES`, a constant from the
header, kept as a parameter `B` here); the head block of the chain is the
writable `top` block, and entries inside a block are listed in insertion order
(index `i` of the list is `entries[i]`, so the list length is the block's
`head` counter).
-/

namespace NonMovingMark

/-- A mark-queue entry (`MarkQueueEnt`): either a closure to trace together
with the optional slot it was read from, an array-chunk tracing request, or
the `NULL_ENTRY` sentinel returned when the queue is empty. -/
inductive MarkQueueEnt where
  | markClosure (p : Nat) (origin : Option Nat)
  | markArray (array : Nat) (startIndex : Nat)
  | nullEntry
deriving DecidableEq

/-- `UNTAG_CLOSURE`: strip the low pointer-tag bits (three bits on a 64-bit
platform) from a closure pointer. -/
def untagClosure (p : Nat) : Nat := p - p % 8

/-- A mark queue (`MarkQueue`): the chain of blocks (`blocks`, whose head is
the current `top` block) and the `is_upd_rem_set` flag distinguishing a
per-capability update remembered set from the collector's mark queue. -/
structure MarkQueue where
  blocks : List (List MarkQueueEnt)
  is_upd_rem_set : Bool
deriving DecidableEq

/-- The global update-remembered-set block list (`upd_rem_set_block_list`),
a chain of blocks flushed from the capabilities' accumulators. -/
abbrev BlockList := List (List MarkQueueEnt)

/-- Modelled from the spec: `markQueueIsEmpty` lives in the header
`NonMovingMark.h`, which is not part of the sources; per the spec a queue is
empty exactly when the chain has a single block with `head == 0`. -/
def markQueueIsEmpty (q : MarkQueue) : Bool :=
  match q.blocks with
  | [b] => b.isEmpty
  | _ => false

/-- `nonmovingAddUpdRemSetBlocks`: transfer a capability's update remembered
set to the global remembered set.  If the queue is empty nothing happens;
otherwise the whole block chain is linked in front of
`upd_rem_set_block_list` and the queue is re-initialised (`init_mark_queue_`)
to a single empty block with `is_upd_rem_set` restored to `true`. -/
def nonmovingAddUpdRemSetBlocks (q : MarkQueue) (g : BlockList) :
    MarkQueue × BlockList :=
  if markQueueIsEmpty q then (q, g)
  else ({ blocks := [[]], is_upd_rem_set := true }, q.blocks ++ g)

/-- `push`: append an entry to the queue's top block.  When the top block is
full (`head == MARK_QUEUE_BLOCK_ENTRIES`, the parameter `B`), an update
remembered set flushes its whole chain to the global list and re-initialises,
while the collector's mark queue prepends a freshly allocated block. -/
def push (B : Nat) (q : MarkQueue) (g : BlockList) (ent : MarkQueueEnt) :
    MarkQueue × BlockList :=
  let qg :=
    if (q.blocks.headD []).length = B then
      if q.is_upd_rem_set then nonmovingAddUpdRemSetBlocks q g
      else ({ q with blocks := [] :: q.blocks }, g)
    else (q, g)
  ({ qg.1 with blocks := ((qg.1.blocks.headD []) ++ [ent]) :: qg.1.blocks.tail },
   qg.2)

/-- `markQueuePushClosureGC`: the minor-GC variant of push.  It allocates a
fresh block under the `gc_alloc_block_sync` spin lock when the top block is
full (never flushing to the global list, regardless of `is_upd_rem_set`) and
stores a `MARK_CLOSURE` entry with the untagged pointer and a null origin. -/
def markQueuePushClosureGC (B : Nat) (q : MarkQueue) (p : Nat) : MarkQueue :=
  let q1 :=
    if (q.blocks.headD []).length = B then { q with blocks := [] :: q.blocks }
    else q
  { q1 with blocks :=
      ((q1.blocks.headD []) ++ [MarkQueueEnt.markClosure (untagClosure p) none])
        :: q1.blocks.tail }

/-- The recursion of `markQueuePop` over the block chain: a drained block that
is not the last one is freed and popping continues on the previous block; a
single drained block means the queue is empty and `NULL_ENTRY` is returned;
otherwise the entry at `head - 1` (the last of the block's entry list) is
removed and returned. -/
def markQueuePopGo : List (List MarkQueueEnt) →
    MarkQueueEnt × List (List MarkQueueEnt)
  | [] => (MarkQueueEnt.nullEntry, [])
  | [] :: rest =>
    match rest with
    | [] => (MarkQueueEnt.nullEntry, [[]])
    | r :: rs => markQueuePopGo (r :: rs)
  | (e :: es) :: rest => (es.getLastD e, (e :: es).dropLast :: rest)

/-- `markQueuePop`: pop the most recently pushed entry off the queue. -/
def markQueuePop (q : MarkQueue) : MarkQueueEnt × MarkQueue :=
  let r := markQueuePopGo q.blocks
  (r.1, { q with blocks := r.2 })

/-- All entries held in a queue, oldest first: blocks are chained newest
first, so the flattening reverses the chain. -/
def flattenQ (q : MarkQueue) : List MarkQueueEnt :=
  q.blocks.reverse.flatten

/-- The multiset of entries held in a queue/global-list pair; transfers
between the two preserve it. -/
def entMultiset (qg : MarkQueue × BlockList) : Multiset MarkQueueEnt :=
  (qg.1.blocks.flatten ++ qg.2.flatten : List MarkQueueEnt)

/-- A stack activation record, as dispatched by `mark_stack_`.  Bitmap frames
carry the payload slots they cover together with the bitmap word (bit clear =
pointer), and the frame info-table's SRT when present. -/
inductive StackFrame where
  | updateFrame (updatee : Nat)
  | smallBitmapFrame (bitmap : Nat) (slots : List Nat) (srt : Option Nat)
  | retBco (bco : Nat) (bcoBitmap : Nat) (slots : List Nat)
  | retBig (bitmap : Nat) (slots : List Nat) (srt : Option Nat)
  | retFun (fn : Nat) (slots : List Nat) (srt : Option Nat)

/-- One `StgTRecHeader` of the `enclosing_trec` chain walked by
`mark_trec_header`: the header's own pointer, its `current_chunk` pointer, and
the `(tvar, expected_value, new_value)` triples of all chunks of the chain
from `current_chunk` through the `prev_chunk` links, flattened in traversal
order. -/
structure TrecFrame where
  trecPtr : Nat
  currentChunk : Nat
  entries : List (Nat × Nat × Nat)

/-- A function info-table's argument descriptor, as consumed by
`mark_PAP_payload` and `mark_arg_block`: `ARG_GEN` carries a small bitmap,
`ARG_GEN_BIG` a large bitmap, `ARG_BCO` the BCO's bitmap, and every other
`fun_type` a canned bitmap from `stg_arg_bitmaps`. -/
inductive ArgKind where
  | argGen (bitmap : Nat)
  | argGenBig (bitmap : Nat)
  | argBco (bitmap : Nat)
  | argCanned (bitmap : Nat)

/-- The heap-allocated closure descriptors dispatched on by `mark_closure`'s
info-table switch.  Pointer fields are listed in the order the corresponding
case of the C switch pushes them (note `*_2_0` pushes `payload[1]` before
`payload[0]`).  `WHITEHOLE` is omitted: its case spins on a concurrent
info-table change, which has no meaning in this sequential model. -/
inductive ClosureDesc where
  | mvar (hd tl value : Nat)
  | tvar (currentValue firstWatch : Nat)
  | fun_2_0 (srt : Option Nat) (f0 f1 : Nat)
  | thunk_2_0 (srt : Option Nat) (f0 f1 : Nat)
  | constr_2_0 (f0 f1 : Nat)
  | thunk_1_0 (srt : Option Nat) (f0 : Nat)
  | fun_1_0 (srt : Option Nat) (f0 : Nat)
  | constr_1_0 (f0 : Nat)
  | thunk_0_1 (srt : Option Nat)
  | fun_0_1 (srt : Option Nat)
  | constr_0_1
  | constr_0_2
  | thunk_0_2 (srt : Option Nat)
  | fun_0_2 (srt : Option Nat)
  | thunk_1_1 (srt : Option Nat) (f0 : Nat)
  | fun_1_1 (srt : Option Nat) (f0 : Nat)
  | constr_1_1 (f0 : Nat)
  | fun_gen (srt : Option Nat) (fields : List Nat)
  | thunk_gen (srt : Option Nat) (fields : List Nat)
  | constr_gen (fields : List Nat)
  | bco (instrs literals ptrs : Nat)
  | ind (indirectee : Nat)
  | mutVar (var : Nat)
  | blockingQueue (bh owner bqueue link : Nat)
  | thunkSelector (selectee : Nat)
  | apStack (fn : Nat) (frames : List StackFrame)
  | pap (fn : Nat) (args : List Nat)
  | ap (fn : Nat) (args : List Nat)
  | arrWords
  | mutArrPtrs
  | smallMutArrPtrs (fields : List Nat)
  | tso (bound : Option Nat) (blockedExceptions bq : Nat)
        (trec : List TrecFrame) (stackobj tsoLink : Nat)
        (blockedEligible : Bool) (blockInfoClosure : Nat)
  | stack (frames : List StackFrame)
  | mutPrim (fields : List Nat)
  | trecChunk (prevChunk : Nat) (entries : List (Nat × Nat × Nat))

/-- The static-closure descriptors dispatched on by the `!HEAP_ALLOCED_GC`
branch of `mark_closure`.  `constrNoLink` stands for `CONSTR_0_1`,
`CONSTR_0_2` and `CONSTR_NOCAF`, which need no marking; `constrStatic` for
the `CONSTR`, `CONSTR_1_0`, `CONSTR_2_0`, `CONSTR_1_1` cases. -/
inductive StaticDesc where
  | constrNoLink
  | thunkStatic (srt : Option Nat)
  | funStatic (srt : Option Nat) (fields : List Nat)
  | indStatic (indirectee : Nat)
  | constrStatic (fields : List Nat)

/-- The read-only heap environment: `HEAP_ALLOCED_GC`, the block-descriptor
table (`Bdescr` and its `gen`, flag bits, `blocks` count and `start`), the
small-object segment geometry (`nonmovingGetBlockIdx`, `next_free_snap`, the
mark-cell addressing `cellOf` and the segment block size), the current mark
epoch and static flag, mutable-array layout, and the closure descriptors.
Flags `BF_NONMOVING`, `BF_LARGE`, `BF_NONMOVING_SWEEPING` and `BF_PINNED` are
fixed for the duration of a mark cycle, so they live here; the mutable
`BF_MARKED` bit lives in the mark state.  The pointer comparison
`p >= nonmovingSegmentGetBlock(seg, seg->next_free_snap)` of `mark_closure`
is rendered as the equivalent block-index comparison
`next_free_snap <= blockIdx p`. -/
structure Heap where
  heapAlloced : Nat → Bool
  bdescrOf : Nat → Nat
  bdGen : Nat → Nat
  oldestGen : Nat
  bdFlagNonmoving : Nat → Bool
  bdFlagLarge : Nat → Bool
  bdFlagSweeping : Nat → Bool
  bdFlagPinned : Nat → Bool
  bdBlocks : Nat → Nat
  bdStart : Nat → Nat
  blockIdx : Nat → Nat
  nextFreeSnap : Nat → Nat
  cellOf : Nat → Nat
  segBlockSizeW : Nat → Nat
  markEpoch : Nat
  staticFlag : Nat
  noFinalizer : Nat
  arrPtrs : Nat → Nat
  arrElem : Nat → Nat → Nat
  closureAt : Nat → ClosureDesc
  staticDesc : Nat → StaticDesc
  funInfo : Nat → ArgKind

/-- `check_in_nonmoving_heap`: a closure is traced by the nonmoving collector
when it is heap-allocated with the `BF_NONMOVING` flag set on its block
descriptor, or when it is static. -/
def check_in_nonmoving_heap (h : Heap) (p : Nat) : Bool :=
  if h.heapAlloced p then h.bdFlagNonmoving (h.bdescrOf p) else true

/-- `push_closure`: discard pointers to generations other than the oldest
(the moving collector is responsible for them), then push a `MARK_CLOSURE`
entry carrying the untagged pointer and the origin slot. -/
def push_closure (B : Nat) (h : Heap) (qg : MarkQueue × BlockList)
    (p : Nat) (origin : Option Nat) : MarkQueue × BlockList :=
  if h.heapAlloced p ∧ h.bdGen (h.bdescrOf p) ≠ h.oldestGen then qg
  else push B qg.1 qg.2 (MarkQueueEnt.markClosure (untagClosure p) origin)

/-- `push_array`: discard arrays outside the oldest generation, then push a
`MARK_ARRAY` entry with the array pointer and starting index. -/
def push_array (B : Nat) (h : Heap) (qg : MarkQueue × BlockList)
    (array : Nat) (start_index : Nat) : MarkQueue × BlockList :=
  if h.heapAlloced array ∧ h.bdGen (h.bdescrOf array) ≠ h.oldestGen then qg
  else push B qg.1 qg.2 (MarkQueueEnt.markArray array start_index)

/-- `markQueuePushClosure_`: push a closure with no origin information. -/
def markQueuePushClosure_ (B : Nat) (h : Heap) (qg : MarkQueue × BlockList)
    (p : Nat) : MarkQueue × BlockList :=
  push_closure B h qg p none

/-- `push_thunk_srt`: when the thunk info-table's `srt` field is nonzero,
push the SRT closure (`GET_SRT`, here the payload of the `Option`) with no
origin.  The `srt` field and the derived closure pointer are modelled
together as an `Option Nat`. -/
def push_thunk_srt (B : Nat) (h : Heap) (qg : MarkQueue × BlockList)
    (srt : Option Nat) : MarkQueue × BlockList :=
  match srt with
  | none => qg
  | some s => push_closure B h qg s none

/-- `push_fun_srt`: the `StgFunInfoTable` analogue of `push_thunk_srt`. -/
def push_fun_srt (B : Nat) (h : Heap) (qg : MarkQueue × BlockList)
    (srt : Option Nat) : MarkQueue × BlockList :=
  match srt with
  | none => qg
  | some s => push_closure B h qg s none

/-- `mark_small_bitmap`: walk `size` payload slots, pushing (with no origin)
each slot whose bitmap bit is clear, shifting the bitmap right as it goes.
The slots are listed explicitly, so `size` is the list length. -/
def mark_small_bitmap (B : Nat) (h : Heap) (qg : MarkQueue × BlockList) :
    List Nat → Nat → MarkQueue × BlockList
  | [], _ => qg
  | p :: ps, bitmap =>
    let qg1 := if bitmap % 2 = 0 then push_closure B h qg p none else qg
    mark_small_bitmap B h qg1 ps (bitmap / 2)

/-- `mark_large_bitmap`: `walk_large_bitmap` with `do_push_closure`, i.e.
push (with no origin) every slot whose large-bitmap bit is clear.  The large
bitmap is modelled as a single natural number, like the small one. -/
def mark_large_bitmap (B : Nat) (h : Heap) (qg : MarkQueue × BlockList) :
    List Nat → Nat → MarkQueue × BlockList
  | [], _ => qg
  | p :: ps, bitmap =>
    let qg1 := if bitmap % 2 = 0 then push_closure B h qg p none else qg
    mark_large_bitmap B h qg1 ps (bitmap / 2)

/-- `mark_PAP_payload`: dispatch on the function's `fun_type` to decode the
argument payload: `ARG_GEN` uses the info-table's small bitmap, `ARG_GEN_BIG`
its large bitmap, `ARG_BCO` the BCO's bitmap, and anything else the canned
`stg_arg_bitmaps` entry. -/
def mark_PAP_payload (B : Nat) (h : Heap) (qg : MarkQueue × BlockList)
    (fn : Nat) (payload : List Nat) : MarkQueue × BlockList :=
  match h.funInfo (untagClosure fn) with
  | ArgKind.argGen bitmap => mark_small_bitmap B h qg payload bitmap
  | ArgKind.argGenBig bitmap => mark_large_bitmap B h qg payload bitmap
  | ArgKind.argBco bitmap => mark_large_bitmap B h qg payload bitmap
  | ArgKind.argCanned bitmap => mark_small_bitmap B h qg payload bitmap

/-- `mark_arg_block` (used by `RET_FUN` frames): like `mark_PAP_payload` but
without the `ARG_BCO` case, whose `fun_type` falls into the canned-bitmap
default here. -/
def mark_arg_block (B : Nat) (h : Heap) (qg : MarkQueue × BlockList)
    (fn : Nat) (slots : List Nat) : MarkQueue × BlockList :=
  match h.funInfo (untagClosure fn) with
  | ArgKind.argGen bitmap => mark_small_bitmap B h qg slots bitmap
  | ArgKind.argGenBig bitmap => mark_large_bitmap B h qg slots bitmap
  | ArgKind.argBco bitmap => mark_small_bitmap B h qg slots bitmap
  | ArgKind.argCanned bitmap => mark_small_bitmap B h qg slots bitmap

/-- One step of `mark_stack_`'s frame walk. -/
def mark_stack_frame (B : Nat) (h : Heap) (qg : MarkQueue × BlockList) :
    StackFrame → MarkQueue × BlockList
  | StackFrame.updateFrame updatee => markQueuePushClosure_ B h qg updatee
  | StackFrame.smallBitmapFrame bitmap slots srt =>
    let qg1 := mark_small_bitmap B h qg slots bitmap
    match srt with
    | none => qg1
    | some s => markQueuePushClosure_ B h qg1 s
  | StackFrame.retBco bco bcoBitmap slots =>
    let qg1 := markQueuePushClosure_ B h qg bco
    mark_large_bitmap B h qg1 slots bcoBitmap
  | StackFrame.retBig bitmap slots srt =>
    let qg1 := mark_large_bitmap B h qg slots bitmap
    match srt with
    | none => qg1
    | some s => markQueuePushClosure_ B h qg1 s
  | StackFrame.retFun fn slots srt =>
    let qg1 := markQueuePushClosure_ B h qg fn
    let qg2 := mark_arg_block B h qg1 fn slots
    match srt with
    | none => qg2
    | some s => markQueuePushClosure_ B h qg2 s

/-- `mark_stack_`: walk the activation records from `sp` to the stack end. -/
def mark_stack_ (B : Nat) (h : Heap) (qg : MarkQueue × BlockList)
    (frames : List StackFrame) : MarkQueue × BlockList :=
  frames.foldl (mark_stack_frame B h) qg

/-- `mark_trec_header`: walk the `enclosing_trec` chain; for each header push
the header and its current chunk, then push the `(tvar, expected, new)`
triples of every chunk of the `prev_chunk` chain. -/
def mark_trec_header (B : Nat) (h : Heap) (qg : MarkQueue × BlockList)
    (trec : List TrecFrame) : MarkQueue × BlockList :=
  trec.foldl (fun acc t =>
    let acc1 := markQueuePushClosure_ B h acc t.trecPtr
    let acc2 := markQueuePushClosure_ B h acc1 t.currentChunk
    t.entries.foldl (fun a e =>
      let a1 := markQueuePushClosure_ B h a e.1
      let a2 := markQueuePushClosure_ B h a1 e.2.1
      markQueuePushClosure_ B h a2 e.2.2) acc2) qg

/-- `mark_tso`: push the bound thread, `blocked_exceptions`, `bq`, the TREC
chain, `stackobj`, `_link`, and `block_info.closure` when `why_blocked` is
one of the eligible blocking reasons. -/
def mark_tso (B : Nat) (h : Heap) (qg : MarkQueue × BlockList)
    (bound : Option Nat) (blockedExceptions bq : Nat)
    (trec : List TrecFrame) (stackobj tsoLink : Nat)
    (blockedEligible : Bool) (blockInfoClosure : Nat) :
    MarkQueue × BlockList :=
  let qg1 :=
    match bound with
    | some t => markQueuePushClosure_ B h qg t
    | none => qg
  let qg2 := markQueuePushClosure_ B h qg1 blockedExceptions
  let qg3 := markQueuePushClosure_ B h qg2 bq
  let qg4 := mark_trec_header B h qg3 trec
  let qg5 := markQueuePushClosure_ B h qg4 stackobj
  let qg6 := markQueuePushClosure_ B h qg5 tsoLink
  if blockedEligible then markQueuePushClosure_ B h qg6 blockInfoClosure
  else qg6

/-- The thunk info-table types dispatched on by
`updateRemembSetPushThunkEager` (any other type is a `barf`). -/
inductive ThunkType where
  | thunk | thunk_1_0 | thunk_0_1 | thunk_2_0 | thunk_1_1 | thunk_0_2
  | ap | thunk_selector | blackhole
deriving DecidableEq

/-- An `StgThunkInfoTable`: the closure type, the SRT (field and derived
closure pointer together as an `Option`), and the pointer-payload count
`layout.payload.ptrs`. -/
structure ThunkInfo where
  ttype : ThunkType
  srt : Option Nat
  ptrs : Nat

/-- An `StgThunk` (also viewed as an `StgAP` in the `AP` case): its own
address, its payload pointers, and for `AP` the `fun` field.  The address of
payload slot `i` is modelled as `addr + 1 + i` and the address of `ap->fun`
as `addr` (slot addresses only feed the `origin` fields of entries). -/
structure Thunk where
  addr : Nat
  payload : List Nat
  apFun : Nat

/-- `updateRemembSetPushThunkEager`: for the plain `THUNK*` types push the
SRT, then each payload field that passes `check_in_nonmoving_heap`, recording
the slot as origin only when the thunk itself is in the nonmoving heap; for
`AP` push the function (with its slot as origin) and decode the argument
payload; `THUNK_SELECTOR` and `BLACKHOLE` are skipped. -/
def updateRemembSetPushThunkEager (B : Nat) (h : Heap)
    (qg : MarkQueue × BlockList) (info : ThunkInfo) (t : Thunk) :
    MarkQueue × BlockList :=
  match info.ttype with
  | ThunkType.thunk | ThunkType.thunk_1_0 | ThunkType.thunk_0_1
  | ThunkType.thunk_2_0 | ThunkType.thunk_1_1 | ThunkType.thunk_0_2 =>
    let qg1 := push_thunk_srt B h qg info.srt
    let record_origin := check_in_nonmoving_heap h t.addr
    (List.range info.ptrs).foldl (fun acc i =>
      let field := t.payload.getD i 0
      if check_in_nonmoving_heap h field then
        push_closure B h acc field
          (if record_origin then some (t.addr + 1 + i) else none)
      else acc) qg1
  | ThunkType.ap =>
    let qg1 := push_closure B h qg t.apFun (some t.addr)
    mark_PAP_payload B h qg1 t.apFun t.payload
  | ThunkType.thunk_selector => qg
  | ThunkType.blackhole => qg

/-- `updateRemembSetPushClosure`: the generic pointer-overwrite barrier;
discard values outside the nonmoving heap, then `push_closure` with no
origin into the capability's update remembered set. -/
def updateRemembSetPushClosure (B : Nat) (h : Heap)
    (qg : MarkQueue × BlockList) (p : Nat) : MarkQueue × BlockList :=
  if check_in_nonmoving_heap h p = false then qg
  else push_closure B h qg p none

/-- An `StgWeak`: key, value, finalizer and C-finalizer list pointers.  The
`link` field is represented by the position in the containing list. -/
structure StgWeak where
  key : Nat
  value : Nat
  finalizer : Nat
  cfinalizers : Nat
deriving DecidableEq

/-- `nonmovingMarkDeadWeak`: push the weak's value only when `cfinalizers`
is not the `stg_NO_FINALIZER_closure` sentinel, then push the finalizer. -/
def nonmovingMarkDeadWeak (B : Nat) (h : Heap) (qg : MarkQueue × BlockList)
    (w : StgWeak) : MarkQueue × BlockList :=
  let qg1 :=
    if w.cfinalizers ≠ h.noFinalizer then markQueuePushClosure_ B h qg w.value
    else qg
  markQueuePushClosure_ B h qg1 w.finalizer

/-- `nonmovingMarkDeadWeaks`: walk `nonmoving_old_weak_ptr_list`, mark each
remaining (dead) weak with `nonmovingMarkDeadWeak` and move it onto the
`dead_weaks` accumulator (each weak is prepended, so the accumulator receives
the list in reverse order). -/
def nonmovingMarkDeadWeaks (B : Nat) (h : Heap) :
    MarkQueue × BlockList → List StgWeak → List StgWeak →
    (MarkQueue × BlockList) × List StgWeak
  | qg, [], dead => (qg, dead)
  | qg, w :: ws, dead =>
    nonmovingMarkDeadWeaks B h (nonmovingMarkDeadWeak B h qg w) ws (w :: dead)

/-- `MARK_ARRAY_CHUNK_LENGTH`: how many array entries are added to the mark
queue at once. -/
def MARK_ARRAY_CHUNK_LENGTH : Nat := 128

/-- The `MARK_ARRAY` case of the `nonmovingMark` loop: compute
`end = start + MARK_ARRAY_CHUNK_LENGTH`; if `end < arr->ptrs` re-enqueue the
tail chunk `MarkArray(arr, end)`, otherwise clamp `end` to `arr->ptrs`; then
push (without origin) every element with index in `[start, end)`. -/
def nonmovingMarkArrayStep (B : Nat) (h : Heap) (qg : MarkQueue × BlockList)
    (arr : Nat) (start : Nat) : MarkQueue × BlockList :=
  let endIdx := start + MARK_ARRAY_CHUNK_LENGTH
  let step :=
    if endIdx < h.arrPtrs arr then (push_array B h qg arr endIdx, endIdx)
    else (qg, h.arrPtrs arr)
  (List.range' start (step.2 - start)).foldl
    (fun acc j => markQueuePushClosure_ B h acc (h.arrElem arr j)) step.1

/-- The mutable large-object registry: the two doubly-linked lists
`nonmoving_large_objects` and `nonmoving_marked_large_objects` (as lists of
block-descriptor ids), their block counts, and the mutable `BF_MARKED` bit of
each descriptor. -/
structure LargeObjState where
  largeList : List Nat
  markedLargeList : List Nat
  nLargeBlocks : Nat
  nMarkedLargeBlocks : Nat
  marked : Nat → Bool

/-- The guarded large-object move performed (under
`nonmoving_large_objects_mutex`) both by `mark_closure`'s epilogue and by the
barrier's `finish_upd_rem_set_mark`: if `BF_MARKED` is not yet set, remove
the descriptor from `nonmoving_large_objects`, link it onto
`nonmoving_marked_large_objects`, transfer its `blocks` count from
`n_nonmoving_large_blocks` to `n_nonmoving_marked_large_blocks`, and set
`BF_MARKED`.  (The two call sites interleave the flag write and the list
moves differently inside the critical section; the resulting state is the
same.) -/
def markLargeObject (h : Heap) (ls : LargeObjState) (bd : Nat) :
    LargeObjState :=
  if ls.marked bd then ls
  else
    { largeList := ls.largeList.erase bd
      markedLargeList := bd :: ls.markedLargeList
      nLargeBlocks := ls.nLargeBlocks - h.bdBlocks bd
      nMarkedLargeBlocks := ls.nMarkedLargeBlocks + h.bdBlocks bd
      marked := fun b => if b = bd then true else ls.marked b }

/-- The mutable state threaded through marking: the queue being pushed to and
the global URS block list, the small-object mark cells, the per-stack
`marking` claim words, the large-object registry, the `nonmoving_live_words`
accumulator, and the static-closure link-field flag bits. -/
structure MarkState where
  queue : MarkQueue
  global : BlockList
  marks : Nat → Nat
  stackMarking : Nat → Nat
  large : LargeObjState
  liveWords : Nat
  staticBits : Nat → Nat

/-- Lift a queue/global transformer to the full mark state (every push-only
operation of the tracer is of this form and touches nothing else). -/
def qgLift (f : MarkQueue × BlockList → MarkQueue × BlockList)
    (st : MarkState) : MarkState :=
  let qg := f (st.queue, st.global)
  { st with queue := qg.1, global := qg.2 }

/-- `needs_upd_rem_set_mark`: an object needs eager barrier marking when it
is in the oldest generation and (large) is in the snapshot and not yet
`BF_MARKED`, or (small) its mark cell differs from the current epoch. -/
def needs_upd_rem_set_mark (h : Heap) (st : MarkState) (p : Nat) : Bool :=
  let bd := h.bdescrOf p
  if h.bdGen bd ≠ h.oldestGen then false
  else if h.bdFlagLarge bd then
    if h.bdFlagSweeping bd = false then false
    else !(st.large.marked bd)
  else st.marks (h.cellOf p) ≠ h.markEpoch

/-- `finish_upd_rem_set_mark`: set the mark bit after the barrier has fully
traced a closure — the guarded list move for large objects, or writing the
current epoch into the segment mark cell for small ones (no `live_words`
accounting here, unlike `mark_closure`'s epilogue). -/
def finish_upd_rem_set_mark (h : Heap) (st : MarkState) (p : Nat) :
    MarkState :=
  let bd := h.bdescrOf p
  if h.bdFlagLarge bd then { st with large := markLargeObject h st.large bd }
  else
    { st with marks := fun c => if c = h.cellOf p then h.markEpoch
                                else st.marks c }

/-- `bump_static_flag`: claim a static closure by a compare-and-swap writing
the current `static_flag` into the low bits of its link field; returns
whether this marker claimed it (sequentially, the CAS succeeds exactly when
the bits differ from the current flag). -/
def bump_static_flag (h : Heap) (st : MarkState) (p : Nat) :
    Bool × MarkState :=
  if st.staticBits p = h.staticFlag then (false, st)
  else
    (true,
     { st with staticBits := fun x => if x = p then h.staticFlag
                                      else st.staticBits x })

/-- The static branch of `mark_closure` (`!HEAP_ALLOCED_GC(p)`):
`CONSTR_0_1`/`CONSTR_0_2`/`CONSTR_NOCAF` need nothing; `THUNK_STATIC` (with a
nonzero SRT), `FUN_STATIC` (with a nonzero SRT or pointer payload),
`IND_STATIC` and static constructors claim the closure via
`bump_static_flag` and, on success, push the SRT and/or the payload
fields. -/
def mark_static (B : Nat) (h : Heap) (st : MarkState) (p : Nat) :
    MarkState :=
  match h.staticDesc p with
  | StaticDesc.constrNoLink => st
  | StaticDesc.thunkStatic srt =>
    match srt with
    | none => st
    | some _ =>
      let r := bump_static_flag h st p
      if r.1 then qgLift (fun qg => push_thunk_srt B h qg srt) r.2 else r.2
  | StaticDesc.funStatic srt fields =>
    if srt.isSome ∨ fields ≠ [] then
      let r := bump_static_flag h st p
      if r.1 then
        qgLift (fun qg =>
          let qg1 := push_fun_srt B h qg srt
          (List.range fields.length).foldl (fun acc i =>
            push_closure B h acc (fields.getD i 0) (some (p + i))) qg1) r.2
      else r.2
    else st
  | StaticDesc.indStatic indirectee =>
    let r := bump_static_flag h st p
    if r.1 then
      qgLift (fun qg => push_closure B h qg indirectee (some p)) r.2
    else r.2
  | StaticDesc.constrStatic fields =>
    let r := bump_static_flag h st p
    if r.1 then
      qgLift (fun qg =>
        (List.range fields.length).foldl (fun acc i =>
          push_closure B h acc (fields.getD i 0) (some (p + i))) qg) r.2
    else r.2

/-- `PUSH_FIELD(obj, field)`: push a field value with the field's slot as the
origin.  Slot addresses are modelled as the object pointer plus the pointer
slot index. -/
def pushField (B : Nat) (h : Heap) (qg : MarkQueue × BlockList)
    (p : Nat) (slot : Nat) (value : Nat) : MarkQueue × BlockList :=
  push_closure B h qg value (some (p + slot))

/-- The "Trace pointers" switch of `mark_closure`, for every closure type
except `STACK` (whose claim protocol also touches the `marking` word and is
handled in `mark_accepted`) and `WHITEHOLE` (a spin on concurrent mutation,
outside this sequential model).  Each case pushes exactly the fields the C
case pushes, in the same order. -/
def mark_closure_trace (B : Nat) (h : Heap) (p : Nat)
    (qg : MarkQueue × BlockList) : MarkQueue × BlockList :=
  match h.closureAt p with
  | ClosureDesc.mvar hd tl value =>
    pushField B h (pushField B h (pushField B h qg p 0 hd) p 1 tl) p 2 value
  | ClosureDesc.tvar currentValue firstWatch =>
    pushField B h (pushField B h qg p 0 currentValue) p 1 firstWatch
  | ClosureDesc.fun_2_0 srt f0 f1 =>
    pushField B h (pushField B h (push_fun_srt B h qg srt) p 1 f1) p 0 f0
  | ClosureDesc.thunk_2_0 srt f0 f1 =>
    pushField B h (pushField B h (push_thunk_srt B h qg srt) p 1 f1) p 0 f0
  | ClosureDesc.constr_2_0 f0 f1 =>
    pushField B h (pushField B h qg p 1 f1) p 0 f0
  | ClosureDesc.thunk_1_0 srt f0 =>
    pushField B h (push_thunk_srt B h qg srt) p 0 f0
  | ClosureDesc.fun_1_0 srt f0 =>
    pushField B h (push_fun_srt B h qg srt) p 0 f0
  | ClosureDesc.constr_1_0 f0 => pushField B h qg p 0 f0
  | ClosureDesc.thunk_0_1 srt => push_thunk_srt B h qg srt
  | ClosureDesc.fun_0_1 srt => push_fun_srt B h qg srt
  | ClosureDesc.constr_0_1 => qg
  | ClosureDesc.constr_0_2 => qg
  | ClosureDesc.thunk_0_2 srt => push_thunk_srt B h qg srt
  | ClosureDesc.fun_0_2 srt => push_fun_srt B h qg srt
  | ClosureDesc.thunk_1_1 srt f0 =>
    pushField B h (push_thunk_srt B h qg srt) p 0 f0
  | ClosureDesc.fun_1_1 srt f0 =>
    pushField B h (push_fun_srt B h qg srt) p 0 f0
  | ClosureDesc.constr_1_1 f0 => pushField B h qg p 0 f0
  | ClosureDesc.fun_gen srt fields =>
    (List.range fields.length).foldl (fun acc i =>
      pushField B h acc p i (fields.getD i 0)) (push_fun_srt B h qg srt)
  | ClosureDesc.thunk_gen srt fields =>
    (List.range fields.length).foldl (fun acc i =>
      pushField B h acc p i (fields.getD i 0)) (push_thunk_srt B h qg srt)
  | ClosureDesc.constr_gen fields =>
    (List.range fields.length).foldl (fun acc i =>
      pushField B h acc p i (fields.getD i 0)) qg
  | ClosureDesc.bco instrs literals ptrs =>
    pushField B h (pushField B h (pushField B h qg p 0 instrs) p 1 literals)
      p 2 ptrs
  | ClosureDesc.ind indirectee => pushField B h qg p 0 indirectee
  | ClosureDesc.mutVar var => pushField B h qg p 0 var
  | ClosureDesc.blockingQueue bh owner bqueue link =>
    pushField B h (pushField B h (pushField B h (pushField B h qg p 0 bh)
      p 1 owner) p 2 bqueue) p 3 link
  | ClosureDesc.thunkSelector selectee => pushField B h qg p 0 selectee
  | ClosureDesc.apStack fn frames =>
    mark_stack_ B h (pushField B h qg p 0 fn) frames
  | ClosureDesc.pap fn args =>
    mark_PAP_payload B h (pushField B h qg p 0 fn) fn args
  | ClosureDesc.ap fn args =>
    mark_PAP_payload B h (pushField B h qg p 0 fn) fn args
  | ClosureDesc.arrWords => qg
  | ClosureDesc.mutArrPtrs => push_array B h qg p 0
  | ClosureDesc.smallMutArrPtrs fields =>
    (List.range fields.length).foldl (fun acc i =>
      pushField B h acc p i (fields.getD i 0)) qg
  | ClosureDesc.tso bound blockedExceptions bq trec stackobj tsoLink
      blockedEligible blockInfoClosure =>
    mark_tso B h qg bound blockedExceptions bq trec stackobj tsoLink
      blockedEligible blockInfoClosure
  | ClosureDesc.stack _ => qg
  | ClosureDesc.mutPrim fields =>
    (List.range fields.length).foldl (fun acc i =>
      pushField B h acc p i (fields.getD i 0)) qg
  | ClosureDesc.trecChunk prevChunk entries =>
    entries.foldl (fun acc e =>
      let a1 := markQueuePushClosure_ B h acc e.1
      let a2 := markQueuePushClosure_ B h a1 e.2.1
      markQueuePushClosure_ B h a2 e.2.2)
      (pushField B h qg p 0 prevChunk)

/-- The mark-bit epilogue of `mark_closure`, run only after all fields have
been pushed: for a large object the guarded move into
`nonmoving_marked_large_objects`; for a small object write the current epoch
into the segment mark cell and add the segment block size to
`nonmoving_live_words`. -/
def mark_epilogue (h : Heap) (st : MarkState) (bd : Nat) (pt : Nat) :
    MarkState :=
  if h.bdFlagLarge bd then { st with large := markLargeObject h st.large bd }
  else
    { st with
      marks := fun c => if c = h.cellOf pt then h.markEpoch else st.marks c
      liveWords := st.liveWords + h.segBlockSizeW pt }

/-- The accepted path of `mark_closure` once classification has decided the
object must be traced: for a `STACK`, try to claim it by a CAS on
`stack->marking` (on loss, return without setting the mark bit — the
claiming mutator will); otherwise run the tracing switch; finally the
mark-bit epilogue. -/
def mark_accepted (B : Nat) (h : Heap) (st : MarkState) (bd : Nat)
    (pt : Nat) : MarkState :=
  match h.closureAt pt with
  | ClosureDesc.stack frames =>
    if st.stackMarking pt = h.markEpoch then st
    else
      let st1 :=
        { st with stackMarking := fun x => if x = pt then h.markEpoch
                                           else st.stackMarking x }
      mark_epilogue h (qgLift (fun qg => mark_stack_ B h qg frames) st1) bd pt
  | _ => mark_epilogue h (qgLift (mark_closure_trace B h pt) st) bd pt

/-- `mark_closure`: untag, classify (static / younger generation / nonmoving
small with its epoch and snapshot checks / nonmoving large with its snapshot
and `BF_MARKED` checks / pinned), then trace and set the mark bit.  `barf`
on a strange closure is rendered as `none`. -/
def mark_closure (B : Nat) (h : Heap) (st : MarkState) (p0 : Nat) :
    Option MarkState :=
  let p := untagClosure p0
  if h.heapAlloced p = false then some (mark_static B h st p)
  else if h.bdGen (h.bdescrOf p) ≠ h.oldestGen then some st
  else if h.bdFlagNonmoving (h.bdescrOf p) then
    if h.bdFlagLarge (h.bdescrOf p) then
      if h.bdFlagSweeping (h.bdescrOf p) = false then some st
      else if st.large.marked (h.bdescrOf p) then some st
      else some (mark_accepted B h st (h.bdescrOf p)
                   (h.bdStart (h.bdescrOf p)))
    else
      if st.marks (h.cellOf p) = h.markEpoch then some st
      else if h.nextFreeSnap p ≤ h.blockIdx p ∧ st.marks (h.cellOf p) = 0 then
        some st
      else some (mark_accepted B h st (h.bdescrOf p) p)
  else if h.bdFlagPinned (h.bdescrOf p) then some st
  else none

/-- `nonmovingIsAlive`: static closures are alive; a large object is alive
iff it was not in the snapshot (`BF_NONMOVING_SWEEPING` clear) or is
`BF_MARKED`; a small object at block index `i` with mark byte `m` is alive
iff `m` equals the current epoch or (`i >= next_free_snap` only) `m = 0`. -/
def nonmovingIsAlive (h : Heap) (st : MarkState) (p : Nat) : Bool :=
  if h.heapAlloced p = false then true
  else
    let bd := h.bdescrOf p
    if h.bdFlagLarge bd then
      (h.bdFlagSweeping bd = false) || st.large.marked bd
    else
      let m := st.marks (h.cellOf p)
      if h.nextFreeSnap p ≤ h.blockIdx p then
        (m = h.markEpoch) || (m = 0)
      else m = h.markEpoch

/-! Helper lemmas about the queue operations. -/

theorem markQueuePopGo_concat (t : List MarkQueueEnt) (e : MarkQueueEnt)
    (rest : List (List MarkQueueEnt)) :
    markQueuePopGo ((t ++ [e]) :: rest) =
      (e, (t ++ [e]).dropLast :: rest) := by
  cases t with
  | nil => simp [markQueuePopGo]
  | cons y ys =>
    simp only [List.cons_append, markQueuePopGo, Prod.mk.injEq]
    refine ⟨?_, rfl⟩
    induction ys generalizing y with
    | nil => simp
    | cons z zs ih => simp [List.getLastD, ih z]

theorem push_blocks_shape (B : Nat) (q : MarkQueue) (g : BlockList)
    (e : MarkQueueEnt) :
    (push B q g e).1.blocks =
      (((if (q.blocks.headD []).length = B then
           if q.is_upd_rem_set then nonmovingAddUpdRemSetBlocks q g
           else ({ q with blocks := [] :: q.blocks }, g)
         else (q, g)).1.blocks.headD []) ++ [e]) ::
        ((if (q.blocks.headD []).length = B then
           if q.is_upd_rem_set then nonmovingAddUpdRemSetBlocks q g
           else ({ q with blocks := [] :: q.blocks }, g)
         else (q, g)).1.blocks.tail) := rfl

theorem push_then_pop (B : Nat) (q : MarkQueue) (g : BlockList)
    (e : MarkQueueEnt) :
    (markQueuePop (push B q g e).1).1 = e := by
  unfold markQueuePop
  rw [push_blocks_shape]
  rw [markQueuePopGo_concat]

theorem flattenQ_push (B : Nat) (q : MarkQueue) (g : BlockList)
    (e : MarkQueueEnt) (hq : q.is_upd_rem_set = false) :
    (push B q g e).2 = g ∧
      flattenQ (push B q g e).1 = flattenQ q ++ [e] := by
  unfold push
  by_cases hfull : (q.blocks.headD []).length = B
  · simp only [hfull, if_pos, hq, Bool.false_eq_true, if_false, if_true]
    cases hb : q.blocks with
    | nil => simp [flattenQ, hb]
    | cons t rest => simp [flattenQ, hb]
  · simp only [hfull, if_false]
    cases hb : q.blocks with
    | nil => simp [flattenQ, hb]
    | cons t rest => simp [flattenQ, hb]

theorem flattenQ_markQueuePushClosureGC (B : Nat) (q : MarkQueue) (p : Nat) :
    flattenQ (markQueuePushClosureGC B q p) =
      flattenQ q ++ [MarkQueueEnt.markClosure (untagClosure p) none] := by
  unfold markQueuePushClosureGC
  by_cases hfull : (q.blocks.headD []).length = B
  · simp only [hfull, if_pos, if_true]
    cases hb : q.blocks with
    | nil => simp [flattenQ, hb]
    | cons t rest => simp [flattenQ, hb]
  · simp only [hfull, if_false]
    cases hb : q.blocks with
    | nil => simp [flattenQ, hb]
    | cons t rest => simp [flattenQ, hb]

theorem entMultiset_push (B : Nat) (q : MarkQueue) (g : BlockList)
    (e : MarkQueueEnt) (hB : 0 < B) :
    entMultiset (push B q g e) = e ::ₘ entMultiset (q, g) := by
  unfold push
  split_ifs with h1 h2
  · have hne : markQueueIsEmpty q = false := by
      unfold markQueueIsEmpty
      cases hb : q.blocks with
      | nil =>
        exfalso
        rw [hb, List.headD_nil] at h1
        simp only [List.length_nil] at h1
        omega
      | cons t rest =>
        rw [hb] at h1
        cases rest with
        | nil =>
          cases t with
          | nil =>
            exfalso
            simp only [List.headD_cons, List.length_nil] at h1
            omega
          | cons x xs => rfl
        | cons r rs => rfl
    unfold nonmovingAddUpdRemSetBlocks
    simp only [hne, Bool.false_eq_true, if_false]
    simp only [entMultiset, List.headD, List.tail, List.flatten_cons,
      List.flatten_append, List.flatten_nil, List.nil_append,
      List.append_nil, Multiset.cons_coe, Multiset.coe_eq_coe,
      List.append_assoc]
    exact List.Perm.refl _
  · simp only [entMultiset]
    cases hb : q.blocks with
    | nil =>
      exfalso
      rw [hb, List.headD_nil] at h1
      simp only [List.length_nil] at h1
      omega
    | cons t rest =>
      simp [List.headD, Multiset.cons_coe, List.append_assoc]
  · simp only [entMultiset]
    cases hb : q.blocks with
    | nil =>
      simp
    | cons t rest =>
      simp only [List.headD, List.tail, List.flatten_cons,
        Multiset.cons_coe, Multiset.coe_eq_coe, List.append_assoc,
        List.singleton_append]
      exact List.perm_middle

theorem push_closure_filtered (B : Nat) (h : Heap)
    (qg : MarkQueue × BlockList) (p : Nat) (origin : Option Nat)
    (hal : h.heapAlloced p = true)
    (hgen : h.bdGen (h.bdescrOf p) ≠ h.oldestGen) :
    push_closure B h qg p origin = qg := by
  unfold push_closure
  rw [if_pos ⟨hal, hgen⟩]

theorem entMultiset_push_closure (B : Nat) (h : Heap)
    (qg : MarkQueue × BlockList) (p : Nat) (origin : Option Nat)
    (hB : 0 < B)
    (hok : h.heapAlloced p = true → h.bdGen (h.bdescrOf p) = h.oldestGen) :
    entMultiset (push_closure B h qg p origin) =
      MarkQueueEnt.markClosure (untagClosure p) origin ::ₘ entMultiset qg := by
  unfold push_closure
  rw [if_neg (fun hc => hc.2 (hok hc.1))]
  exact entMultiset_push B qg.1 qg.2 _ hB

theorem flattenQ_push_closure (B : Nat) (h : Heap)
    (qg : MarkQueue × BlockList) (p : Nat) (origin : Option Nat)
    (hq : qg.1.is_upd_rem_set = false)
    (hok : h.heapAlloced p = true → h.bdGen (h.bdescrOf p) = h.oldestGen) :
    (push_closure B h qg p origin).2 = qg.2 ∧
      flattenQ (push_closure B h qg p origin).1 =
        flattenQ qg.1 ++ [MarkQueueEnt.markClosure (untagClosure p) origin] := by
  unfold push_closure
  rw [if_neg (fun hc => hc.2 (hok hc.1))]
  exact flattenQ_push B qg.1 qg.2 _ hq

theorem flattenQ_push_array (B : Nat) (h : Heap)
    (qg : MarkQueue × BlockList) (arr idx : Nat)
    (hq : qg.1.is_upd_rem_set = false)
    (hok : h.heapAlloced arr = true →
      h.bdGen (h.bdescrOf arr) = h.oldestGen) :
    (push_array B h qg arr idx).2 = qg.2 ∧
      flattenQ (push_array B h qg arr idx).1 =
        flattenQ qg.1 ++ [MarkQueueEnt.markArray arr idx] := by
  unfold push_array
  rw [if_neg (fun hc => hc.2 (hok hc.1))]
  exact flattenQ_push B qg.1 qg.2 _ hq

/-! The claims. -/

/-- C9: pushing any entry onto a mark queue and immediately popping returns
that entry unchanged, origin field included, also when the push lands in a
full block and triggers either the flush-and-reinit of an update remembered
set or the fresh-block allocation of the collector's queue (both paths end by
storing the entry in the writable top block, whose last entry `pop` takes). -/
theorem claim_C9_push_pop (B : Nat) (q : MarkQueue) (g : BlockList)
    (e : MarkQueueEnt) :
    (markQueuePop (push B q g e).1).1 = e :=
  push_then_pop B q g e

/-- C6: `push_closure` leaves the queue and global list unchanged when the
pointer is heap-allocated in a generation other than the oldest, and
otherwise adds exactly one `MARK_CLOSURE` entry carrying the untagged pointer
and the origin slot. -/
theorem claim_C6_push_closure (B : Nat) (h : Heap)
    (qg : MarkQueue × BlockList) (p : Nat) (origin : Option Nat)
    (hB : 0 < B) :
    (h.heapAlloced p = true → h.bdGen (h.bdescrOf p) ≠ h.oldestGen →
       push_closure B h qg p origin = qg)
    ∧ (¬(h.heapAlloced p = true ∧ h.bdGen (h.bdescrOf p) ≠ h.oldestGen) →
       entMultiset (push_closure B h qg p origin) =
         MarkQueueEnt.markClosure (untagClosure p) origin ::ₘ entMultiset qg) := by
  constructor
  · intro hal hgen
    exact push_closure_filtered B h qg p origin hal hgen
  · intro hnf
    unfold push_closure
    rw [if_neg hnf]
    exact entMultiset_push B qg.1 qg.2 _ hB

/-- C10: the minor-GC push variant `markQueuePushClosureGC` unconditionally
appends a `MARK_CLOSURE` entry with the untagged pointer and a null origin —
it applies no oldest-generation filter — whereas `push_closure` discards a
pointer that is heap-allocated outside the oldest generation. -/
theorem claim_C10_pushGC (B : Nat) (h : Heap) (q : MarkQueue) (g : BlockList)
    (p : Nat) (origin : Option Nat) :
    flattenQ (markQueuePushClosureGC B q p) =
      flattenQ q ++ [MarkQueueEnt.markClosure (untagClosure p) none]
    ∧ (h.heapAlloced p = true → h.bdGen (h.bdescrOf p) ≠ h.oldestGen →
        push_closure B h (q, g) p origin = (q, g)) := by
  constructor
  · exact flattenQ_markQueuePushClosureGC B q p
  · intro hal hgen
    exact push_closure_filtered B h (q, g) p origin hal hgen

/-- C2: `nonmovingIsAlive` returns true for a static closure; for a large
object it returns true iff the object is not in the snapshot
(`BF_NONMOVING_SWEEPING` clear) or `BF_MARKED` is set; for a small nonmoving
object with mark byte `m` at block index `idx` it returns
`m = epoch ∨ m = 0` when `idx ≥ next_free_snap` and `m = epoch` otherwise. -/
theorem claim_C2_isAlive (h : Heap) (st : MarkState) (p : Nat) :
    (h.heapAlloced p = false → nonmovingIsAlive h st p = true)
    ∧ (h.heapAlloced p = true → h.bdFlagLarge (h.bdescrOf p) = true →
        (nonmovingIsAlive h st p = true ↔
          h.bdFlagSweeping (h.bdescrOf p) = false ∨
            st.large.marked (h.bdescrOf p) = true))
    ∧ (h.heapAlloced p = true → h.bdFlagLarge (h.bdescrOf p) = false →
        h.nextFreeSnap p ≤ h.blockIdx p →
        (nonmovingIsAlive h st p = true ↔
          st.marks (h.cellOf p) = h.markEpoch ∨ st.marks (h.cellOf p) = 0))
    ∧ (h.heapAlloced p = true → h.bdFlagLarge (h.bdescrOf p) = false →
        h.blockIdx p < h.nextFreeSnap p →
        (nonmovingIsAlive h st p = true ↔
          st.marks (h.cellOf p) = h.markEpoch)) := by
  refine ⟨?_, ?_, ?_, ?_⟩
  · intro hal
    simp [nonmovingIsAlive, hal]
  · intro hal hl
    simp [nonmovingIsAlive, hal, hl]
  · intro hal hl hsnap
    simp [nonmovingIsAlive, hal, hl, hsnap]
  · intro hal hl hsnap
    have : ¬ (h.nextFreeSnap p ≤ h.blockIdx p) := by omega
    simp [nonmovingIsAlive, hal, hl, this]

theorem push_preserves_not_urs (B : Nat) (q : MarkQueue) (g : BlockList)
    (e : MarkQueueEnt) (hq : q.is_upd_rem_set = false) :
    (push B q g e).1.is_upd_rem_set = false := by
  unfold push
  split_ifs with h1 h2
  · rw [hq] at h2
    simp at h2
  · exact hq
  · exact hq

theorem push_closure_preserves_not_urs (B : Nat) (h : Heap)
    (qg : MarkQueue × BlockList) (p : Nat) (origin : Option Nat)
    (hq : qg.1.is_upd_rem_set = false) :
    (push_closure B h qg p origin).1.is_upd_rem_set = false := by
  unfold push_closure
  split_ifs
  · exact hq
  · exact push_preserves_not_urs B qg.1 qg.2 _ hq

theorem push_array_preserves_not_urs (B : Nat) (h : Heap)
    (qg : MarkQueue × BlockList) (arr idx : Nat)
    (hq : qg.1.is_upd_rem_set = false) :
    (push_array B h qg arr idx).1.is_upd_rem_set = false := by
  unfold push_array
  split_ifs
  · exact hq
  · exact push_preserves_not_urs B qg.1 qg.2 _ hq

theorem flattenQ_foldl_pushClosure (B : Nat) (h : Heap) (f : Nat → Nat)
    (xs : List Nat) (qg : MarkQueue × BlockList)
    (hq : qg.1.is_upd_rem_set = false)
    (hel : ∀ j ∈ xs, h.heapAlloced (f j) = true →
      h.bdGen (h.bdescrOf (f j)) = h.oldestGen) :
    (xs.foldl (fun acc j => markQueuePushClosure_ B h acc (f j))
        qg).1.is_upd_rem_set = false ∧
    (xs.foldl (fun acc j => markQueuePushClosure_ B h acc (f j)) qg).2 = qg.2 ∧
    flattenQ (xs.foldl (fun acc j => markQueuePushClosure_ B h acc (f j))
        qg).1 =
      flattenQ qg.1 ++ xs.map (fun j =>
        MarkQueueEnt.markClosure (untagClosure (f j)) none) := by
  induction xs generalizing qg with
  | nil => simp [hq]
  | cons x rest ih =>
    simp only [List.foldl_cons, List.map_cons]
    have hx := hel x (by simp)
    have hstep := flattenQ_push_closure B h qg (f x) none hq hx
    have hurs := push_closure_preserves_not_urs B h qg (f x) none hq
    have hrest := ih (markQueuePushClosure_ B h qg (f x)) hurs
      (fun j hj => hel j (by simp [hj]))
    refine ⟨hrest.1, ?_, ?_⟩
    · rw [hrest.2.1]
      exact hstep.1
    · rw [hrest.2.2]
      unfold markQueuePushClosure_
      rw [hstep.2]
      simp

/-- C5: popping a `MarkArray {a, i}` entry pushes `MARK_CLOSURE` entries for
exactly the elements `a[j]` with `i ≤ j < min (i + 128) a.ptrs` (in index
order) and re-enqueues `MarkArray {a, i + 128}` if and only if
`i + 128 < a.ptrs`; in particular an array of length exactly 128 processed
from index 0 pushes all 128 elements inline with no tail re-queue. -/
theorem claim_C5_markArrayStep (B : Nat) (h : Heap)
    (qg : MarkQueue × BlockList) (arr start : Nat)
    (hq : qg.1.is_upd_rem_set = false)
    (harr : h.heapAlloced arr = true →
      h.bdGen (h.bdescrOf arr) = h.oldestGen)
    (helem : ∀ j, h.heapAlloced (h.arrElem arr j) = true →
      h.bdGen (h.bdescrOf (h.arrElem arr j)) = h.oldestGen) :
    (nonmovingMarkArrayStep B h qg arr start).2 = qg.2 ∧
      flattenQ (nonmovingMarkArrayStep B h qg arr start).1 =
        flattenQ qg.1
          ++ (if start + MARK_ARRAY_CHUNK_LENGTH < h.arrPtrs arr then
                [MarkQueueEnt.markArray arr (start + MARK_ARRAY_CHUNK_LENGTH)]
              else [])
          ++ ((List.range' start
                (min (start + MARK_ARRAY_CHUNK_LENGTH) (h.arrPtrs arr)
                  - start)).map
              (fun j => MarkQueueEnt.markClosure
                (untagClosure (h.arrElem arr j)) none)) := by
  unfold nonmovingMarkArrayStep
  by_cases hreq : start + MARK_ARRAY_CHUNK_LENGTH < h.arrPtrs arr
  · simp only [hreq, if_true]
    have hmin : min (start + MARK_ARRAY_CHUNK_LENGTH) (h.arrPtrs arr) =
        start + MARK_ARRAY_CHUNK_LENGTH := Nat.min_eq_left (Nat.le_of_lt hreq)
    have hstep := flattenQ_push_array B h qg arr
      (start + MARK_ARRAY_CHUNK_LENGTH) hq harr
    have hurs := push_array_preserves_not_urs B h qg arr
      (start + MARK_ARRAY_CHUNK_LENGTH) hq
    have hfold := flattenQ_foldl_pushClosure B h (h.arrElem arr)
      (List.range' start (start + MARK_ARRAY_CHUNK_LENGTH - start))
      (push_array B h qg arr (start + MARK_ARRAY_CHUNK_LENGTH)) hurs
      (fun j _ => helem j)
    refine ⟨?_, ?_⟩
    · rw [hfold.2.1, hstep.1]
    · rw [hfold.2.2, hstep.2, hmin]
  · simp only [hreq, if_false]
    have hmin : min (start + MARK_ARRAY_CHUNK_LENGTH) (h.arrPtrs arr) =
        h.arrPtrs arr := Nat.min_eq_right (Nat.le_of_not_lt hreq)
    have hfold := flattenQ_foldl_pushClosure B h (h.arrElem arr)
      (List.range' start (h.arrPtrs arr - start)) qg hq
      (fun j _ => helem j)
    refine ⟨hfold.2.1, ?_⟩
    · rw [hfold.2.2, hmin]
      simp

/-! Concrete instances used to instantiate the theorems that carry
hypotheses. -/

/-- A concrete heap in which every pointer is heap-allocated in the oldest
generation of the nonmoving heap, as a small (non-large) object; mutable
arrays have 128 elements, element `j` being the (untagged) pointer `8 * j`. -/
def heapA : Heap where
  heapAlloced := fun _ => true
  bdescrOf := fun p => p / 64
  bdGen := fun _ => 0
  oldestGen := 0
  bdFlagNonmoving := fun _ => true
  bdFlagLarge := fun _ => false
  bdFlagSweeping := fun _ => false
  bdFlagPinned := fun _ => false
  bdBlocks := fun _ => 1
  bdStart := fun b => b * 64
  blockIdx := fun p => p % 64 / 8
  nextFreeSnap := fun _ => 1
  cellOf := fun p => p / 8
  segBlockSizeW := fun _ => 2
  markEpoch := 1
  staticFlag := 1
  noFinalizer := 96
  arrPtrs := fun _ => 128
  arrElem := fun _ j => 8 * j
  closureAt := fun _ => ClosureDesc.constr_0_1
  staticDesc := fun _ => StaticDesc.constrNoLink
  funInfo := fun _ => ArgKind.argCanned 0

/-- A concrete heap in which every pointer is heap-allocated in generation 1
while the oldest generation is 0 — the filters of `push_closure` and
`push_array` fire on every pointer. -/
def heapY : Heap where
  heapAlloced := fun _ => true
  bdescrOf := fun p => p / 64
  bdGen := fun _ => 1
  oldestGen := 0
  bdFlagNonmoving := fun _ => false
  bdFlagLarge := fun _ => false
  bdFlagSweeping := fun _ => false
  bdFlagPinned := fun _ => false
  bdBlocks := fun _ => 1
  bdStart := fun b => b * 64
  blockIdx := fun p => p % 64 / 8
  nextFreeSnap := fun _ => 1
  cellOf := fun p => p / 8
  segBlockSizeW := fun _ => 2
  markEpoch := 1
  staticFlag := 1
  noFinalizer := 96
  arrPtrs := fun _ => 128
  arrElem := fun _ j => 8 * j
  closureAt := fun _ => ClosureDesc.constr_0_1
  staticDesc := fun _ => StaticDesc.constrNoLink
  funInfo := fun _ => ArgKind.argCanned 0

/-- An empty large-object registry. -/
def lsEmpty : LargeObjState where
  largeList := []
  markedLargeList := []
  nLargeBlocks := 0
  nMarkedLargeBlocks := 0
  marked := fun _ => false

/-- A concrete mark state: a one-empty-block collector queue, no global URS
blocks, all mark cells 0, no claimed stacks, the empty large-object registry,
no live words, all static flag bits 0. -/
def stA : MarkState where
  queue := { blocks := [[]], is_upd_rem_set := false }
  global := []
  marks := fun _ => 0
  stackMarking := fun _ => 0
  large := lsEmpty
  liveWords := 0
  staticBits := fun _ => 0

theorem claim_C2_witness :
    heapA.heapAlloced 16 = true ∧
    heapA.bdFlagLarge (heapA.bdescrOf 16) = false ∧
    heapA.nextFreeSnap 16 ≤ heapA.blockIdx 16 ∧
    (nonmovingIsAlive heapA stA 16 = true ↔
      stA.marks (heapA.cellOf 16) = heapA.markEpoch ∨
        stA.marks (heapA.cellOf 16) = 0) :=
  ⟨rfl, rfl, by decide,
    (claim_C2_isAlive heapA stA 16).2.2.1 rfl rfl (by decide)⟩

theorem claim_C6_witness :
    0 < 2 ∧
    entMultiset (push_closure 2 heapA
        ({ blocks := [[]], is_upd_rem_set := false }, []) 9 (some 3)) =
      MarkQueueEnt.markClosure (untagClosure 9) (some 3) ::ₘ
        entMultiset ({ blocks := [[]], is_upd_rem_set := false }, []) :=
  ⟨by decide,
    (claim_C6_push_closure 2 heapA
        ({ blocks := [[]], is_upd_rem_set := false }, []) 9 (some 3)
        (by decide)).2 (fun hc => absurd rfl hc.2)⟩

theorem claim_C10_witness :
    flattenQ (markQueuePushClosureGC 2
        { blocks := [[]], is_upd_rem_set := false } 9) =
      flattenQ { blocks := [[]], is_upd_rem_set := false }
        ++ [MarkQueueEnt.markClosure (untagClosure 9) none]
    ∧ push_closure 2 heapY ({ blocks := [[]], is_upd_rem_set := false }, [])
        9 none = ({ blocks := [[]], is_upd_rem_set := false }, []) :=
  ⟨(claim_C10_pushGC 2 heapY { blocks := [[]], is_upd_rem_set := false } []
      9 none).1,
   (claim_C10_pushGC 2 heapY { blocks := [[]], is_upd_rem_set := false } []
      9 none).2 rfl (by decide)⟩

theorem claim_C5_witness :
    ({ blocks := [[]], is_upd_rem_set := false } : MarkQueue).is_upd_rem_set
        = false ∧
    heapA.arrPtrs 256 = 128 ∧
    (nonmovingMarkArrayStep 4 heapA
        ({ blocks := [[]], is_upd_rem_set := false }, []) 256 0).2 = [] ∧
    flattenQ (nonmovingMarkArrayStep 4 heapA
        ({ blocks := [[]], is_upd_rem_set := false }, []) 256 0).1 =
      flattenQ { blocks := [[]], is_upd_rem_set := false }
        ++ (if 0 + MARK_ARRAY_CHUNK_LENGTH < heapA.arrPtrs 256 then
              [MarkQueueEnt.markArray 256 (0 + MARK_ARRAY_CHUNK_LENGTH)]
            else [])
        ++ ((List.range' 0
              (min (0 + MARK_ARRAY_CHUNK_LENGTH) (heapA.arrPtrs 256) - 0)).map
            (fun j => MarkQueueEnt.markClosure
              (untagClosure (heapA.arrElem 256 j)) none)) := by
  refine ⟨rfl, rfl, ?_, ?_⟩
  · exact (claim_C5_markArrayStep 4 heapA
      ({ blocks := [[]], is_upd_rem_set := false }, []) 256 0 rfl
      (fun _ => rfl) (fun _ _ => rfl)).1
  · exact (claim_C5_markArrayStep 4 heapA
      ({ blocks := [[]], is_upd_rem_set := false }, []) 256 0 rfl
      (fun _ => rfl) (fun _ _ => rfl)).2

/-- C8: the `BF_MARKED`-guarded large-object move shared by `mark_closure`'s
epilogue and the barrier's `finish_upd_rem_set_mark` preserves the
partition: no descriptor is linked into both `nonmoving_large_objects` and
`nonmoving_marked_large_objects`; a descriptor already `BF_MARKED` is left
untouched, so a block moves at most once per cycle (the move is idempotent);
and the move leaves `n_nonmoving_large_blocks +
n_nonmoving_marked_large_blocks` unchanged.  The final conjunct ties both
call sites to the shared move. -/
theorem claim_C8_largePartition (h : Heap) (ls : LargeObjState) (bd : Nat)
    (hnodup : ls.largeList.Nodup)
    (hdisj : ∀ b, b ∈ ls.largeList → b ∉ ls.markedLargeList)
    (hmem : ls.marked bd = false → bd ∈ ls.largeList)
    (hcnt : ls.nLargeBlocks = (ls.largeList.map h.bdBlocks).sum) :
    (∀ b, b ∈ (markLargeObject h ls bd).largeList →
        b ∉ (markLargeObject h ls bd).markedLargeList)
    ∧ (ls.marked bd = true → markLargeObject h ls bd = ls)
    ∧ markLargeObject h (markLargeObject h ls bd) bd = markLargeObject h ls bd
    ∧ (markLargeObject h ls bd).nLargeBlocks
        + (markLargeObject h ls bd).nMarkedLargeBlocks
      = ls.nLargeBlocks + ls.nMarkedLargeBlocks
    ∧ (∀ st : MarkState, ∀ p : Nat, st.large = ls → h.bdescrOf p = bd →
        h.bdFlagLarge bd = true →
        (finish_upd_rem_set_mark h st p).large = markLargeObject h ls bd
        ∧ (mark_epilogue h st bd p).large = markLargeObject h ls bd) := by
  have hlink : ∀ st : MarkState, ∀ p : Nat, st.large = ls →
      h.bdescrOf p = bd → h.bdFlagLarge bd = true →
      (finish_upd_rem_set_mark h st p).large = markLargeObject h ls bd
      ∧ (mark_epilogue h st bd p).large = markLargeObject h ls bd := by
    intro st p hst hbd2 hlarge
    constructor
    · simp [finish_upd_rem_set_mark, hbd2, hlarge, hst]
    · simp [mark_epilogue, hlarge, hst]
  by_cases hm : ls.marked bd
  · have hid : markLargeObject h ls bd = ls := by
      simp [markLargeObject, hm]
    refine ⟨?_, fun _ => hid, ?_, ?_, hlink⟩
    · rw [hid]
      exact hdisj
    · rw [hid, hid]
    · rw [hid]
  · have hmf : ls.marked bd = false := by
      revert hm
      cases ls.marked bd <;> simp
    have hbd : bd ∈ ls.largeList := hmem hmf
    have hunfold : markLargeObject h ls bd =
        { largeList := ls.largeList.erase bd
          markedLargeList := bd :: ls.markedLargeList
          nLargeBlocks := ls.nLargeBlocks - h.bdBlocks bd
          nMarkedLargeBlocks := ls.nMarkedLargeBlocks + h.bdBlocks bd
          marked := fun b => if b = bd then true else ls.marked b } := by
      simp [markLargeObject, hmf]
    refine ⟨?_, ?_, ?_, ?_, hlink⟩
    · intro b hb hbm
      rw [hunfold] at hb hbm
      obtain ⟨hne, hbl⟩ := (List.Nodup.mem_erase_iff hnodup).mp hb
      rcases List.mem_cons.mp hbm with heq | hbm2
      · exact hne heq
      · exact hdisj b hbl hbm2
    · intro hcontra
      rw [hcontra] at hmf
      simp at hmf
    · rw [hunfold]
      simp [markLargeObject]
    · have hk : h.bdBlocks bd ≤ ls.nLargeBlocks := by
        rw [hcnt]
        exact List.single_le_sum (fun x _ => Nat.zero_le x) _
          (List.mem_map_of_mem _ hbd)
      rw [hunfold]
      simp only []
      omega

/-- A concrete large-object registry holding one unmarked descriptor. -/
def lsC8 : LargeObjState where
  largeList := [5]
  markedLargeList := []
  nLargeBlocks := 1
  nMarkedLargeBlocks := 0
  marked := fun _ => false

/-- The entries `nonmovingMarkDeadWeak` pushes for one dead weak: the value
only when `cfinalizers` is not the no-finalizer sentinel, then the
finalizer. -/
def deadWeakPushList (h : Heap) (w : StgWeak) : List MarkQueueEnt :=
  (if w.cfinalizers ≠ h.noFinalizer then
     [MarkQueueEnt.markClosure (untagClosure w.value) none]
   else [])
  ++ [MarkQueueEnt.markClosure (untagClosure w.finalizer) none]

theorem flattenQ_markDeadWeak (B : Nat) (h : Heap)
    (qg : MarkQueue × BlockList) (w : StgWeak)
    (hq : qg.1.is_upd_rem_set = false)
    (hv : h.heapAlloced w.value = true →
      h.bdGen (h.bdescrOf w.value) = h.oldestGen)
    (hf : h.heapAlloced w.finalizer = true →
      h.bdGen (h.bdescrOf w.finalizer) = h.oldestGen) :
    (nonmovingMarkDeadWeak B h qg w).2 = qg.2 ∧
    (nonmovingMarkDeadWeak B h qg w).1.is_upd_rem_set = false ∧
    flattenQ (nonmovingMarkDeadWeak B h qg w).1 =
      flattenQ qg.1 ++ deadWeakPushList h w := by
  unfold nonmovingMarkDeadWeak deadWeakPushList
  split_ifs with hc
  · have h1 := flattenQ_push_closure B h qg w.value none hq hv
    have h1u := push_closure_preserves_not_urs B h qg w.value none hq
    have h2 := flattenQ_push_closure B h
      (markQueuePushClosure_ B h qg w.value) w.finalizer none h1u hf
    have h2u := push_closure_preserves_not_urs B h
      (markQueuePushClosure_ B h qg w.value) w.finalizer none h1u
    unfold markQueuePushClosure_ at h1 h1u h2 h2u ⊢
    refine ⟨by rw [h2.1, h1.1], h2u, ?_⟩
    rw [h2.2, h1.2]
    simp
  · have h2 := flattenQ_push_closure B h qg w.finalizer none hq hf
    have h2u := push_closure_preserves_not_urs B h qg w.finalizer none hq
    unfold markQueuePushClosure_ at h2 h2u ⊢
    exact ⟨h2.1, h2u, by rw [h2.2]; simp⟩

/-- C4 counterexample: for a dead weak whose `cfinalizers` field is the
no-finalizer sentinel, `nonmovingMarkDeadWeak` pushes only the finalizer —
the claimed unconditional push of `w.value` does not happen (the entry for
the value, pointer 16, appears nowhere in the queue), and `w.cfinalizers` is
never pushed. -/
theorem claim_C4_cex :
    flattenQ (nonmovingMarkDeadWeak 2 heapA
        ({ blocks := [[]], is_upd_rem_set := false }, [])
        { key := 0, value := 16, finalizer := 24, cfinalizers := 96 }).1 =
      [MarkQueueEnt.markClosure 24 none] ∧
    MarkQueueEnt.markClosure 16 none ∉
      flattenQ (nonmovingMarkDeadWeak 2 heapA
        ({ blocks := [[]], is_upd_rem_set := false }, [])
        { key := 0, value := 16, finalizer := 24, cfinalizers := 96 }).1 := by
  constructor
  · rfl
  · decide

/-- C4 (amended): for every weak remaining on `old_weak_ptr_list` after the
weak fixpoint, `nonmovingMarkDeadWeaks` pushes the weak's value *only if*
its `cfinalizers` field is not the no-finalizer sentinel, always pushes its
finalizer, never pushes `cfinalizers` itself, and moves the weak onto the
`dead_weaks` accumulator (which, being built by prepending, receives the
list in reverse order). -/
theorem claim_C4_markDeadWeaks (B : Nat) (h : Heap)
    (qg : MarkQueue × BlockList) (ws dead : List StgWeak)
    (hq : qg.1.is_upd_rem_set = false)
    (hok : ∀ w ∈ ws,
      (h.heapAlloced w.value = true →
        h.bdGen (h.bdescrOf w.value) = h.oldestGen) ∧
      (h.heapAlloced w.finalizer = true →
        h.bdGen (h.bdescrOf w.finalizer) = h.oldestGen)) :
    (nonmovingMarkDeadWeaks B h qg ws dead).2 = ws.reverse ++ dead ∧
    (nonmovingMarkDeadWeaks B h qg ws dead).1.2 = qg.2 ∧
    flattenQ (nonmovingMarkDeadWeaks B h qg ws dead).1.1 =
      flattenQ qg.1 ++ (ws.map (deadWeakPushList h)).flatten := by
  induction ws generalizing qg dead with
  | nil => simp [nonmovingMarkDeadWeaks]
  | cons w rest ih =>
    have hw := hok w (by simp)
    have hstep := flattenQ_markDeadWeak B h qg w hq hw.1 hw.2
    have hrest := ih (nonmovingMarkDeadWeak B h qg w) (w :: dead) hstep.2.1
      (fun w2 hw2 => hok w2 (by simp [hw2]))
    unfold nonmovingMarkDeadWeaks
    refine ⟨?_, ?_, ?_⟩
    · rw [hrest.1]
      simp
    · rw [hrest.2.1, hstep.1]
    · rw [hrest.2.2, hstep.2.2]
      simp

theorem claim_C4_witness :
    (({ blocks := [[]], is_upd_rem_set := false } : MarkQueue),
        ([] : BlockList)).1.is_upd_rem_set = false ∧
    (nonmovingMarkDeadWeaks 2 heapA
        ({ blocks := [[]], is_upd_rem_set := false }, [])
        [{ key := 0, value := 16, finalizer := 24, cfinalizers := 97 },
         { key := 8, value := 32, finalizer := 40, cfinalizers := 96 }]
        []).2 =
      [{ key := 0, value := 16, finalizer := 24, cfinalizers := 97 },
       { key := 8, value := 32, finalizer := 40, cfinalizers := 96 }].reverse
        ++ [] ∧
    flattenQ (nonmovingMarkDeadWeaks 2 heapA
        ({ blocks := [[]], is_upd_rem_set := false }, [])
        [{ key := 0, value := 16, finalizer := 24, cfinalizers := 97 },
         { key := 8, value := 32, finalizer := 40, cfinalizers := 96 }]
        []).1.1 =
      flattenQ { blocks := [[]], is_upd_rem_set := false }
        ++ ([{ key := 0, value := 16, finalizer := 24, cfinalizers := 97 },
             { key := 8, value := 32, finalizer := 40,
               cfinalizers := 96 }].map
            (deadWeakPushList heapA)).flatten := by
  refine ⟨rfl, ?_, ?_⟩
  · exact (claim_C4_markDeadWeaks 2 heapA
      ({ blocks := [[]], is_upd_rem_set := false }, [])
      [{ key := 0, value := 16, finalizer := 24, cfinalizers := 97 },
       { key := 8, value := 32, finalizer := 40, cfinalizers := 96 }]
      [] rfl (fun w _ => ⟨fun _ => rfl, fun _ => rfl⟩)).1
  · exact (claim_C4_markDeadWeaks 2 heapA
      ({ blocks := [[]], is_upd_rem_set := false }, [])
      [{ key := 0, value := 16, finalizer := 24, cfinalizers := 97 },
       { key := 8, value := 32, finalizer := 40, cfinalizers := 96 }]
      [] rfl (fun w _ => ⟨fun _ => rfl, fun _ => rfl⟩)).2.2

/-- Whether a thunk info-table type is one of the six plain `THUNK*` cases
of `updateRemembSetPushThunkEager`. -/
def isPlainThunkType : ThunkType → Bool
  | ThunkType.thunk => true
  | ThunkType.thunk_1_0 => true
  | ThunkType.thunk_0_1 => true
  | ThunkType.thunk_2_0 => true
  | ThunkType.thunk_1_1 => true
  | ThunkType.thunk_0_2 => true
  | _ => false

/-- The entry pushed for the thunk's SRT, when the `srt` field is nonzero. -/
def eagerSrtPushes (_h : Heap) (info : ThunkInfo) : List MarkQueueEnt :=
  match info.srt with
  | none => []
  | some s => [MarkQueueEnt.markClosure (untagClosure s) none]

/-- The entries pushed for a plain thunk's payload: exactly the fields that
pass `check_in_nonmoving_heap`, with the field slot as origin when the thunk
itself is in the nonmoving heap. -/
def eagerFieldPushes (h : Heap) (info : ThunkInfo) (t : Thunk) :
    List MarkQueueEnt :=
  (List.range info.ptrs).filterMap (fun i =>
    if check_in_nonmoving_heap h (t.payload.getD i 0) then
      some (MarkQueueEnt.markClosure (untagClosure (t.payload.getD i 0))
        (if check_in_nonmoving_heap h t.addr then some (t.addr + 1 + i)
         else none))
    else none)

theorem entMultiset_eager_fold (B : Nat) (h : Heap) (payload : List Nat)
    (addr : Nat) (ro : Bool) (idxs : List Nat) (qg : MarkQueue × BlockList)
    (hB : 0 < B)
    (hok : ∀ i ∈ idxs, check_in_nonmoving_heap h (payload.getD i 0) = true →
      h.heapAlloced (payload.getD i 0) = true →
      h.bdGen (h.bdescrOf (payload.getD i 0)) = h.oldestGen) :
    entMultiset (idxs.foldl (fun acc i =>
        if check_in_nonmoving_heap h (payload.getD i 0) then
          push_closure B h acc (payload.getD i 0)
            (if ro then some (addr + 1 + i) else none)
        else acc) qg) =
      ↑(idxs.filterMap (fun i =>
        if check_in_nonmoving_heap h (payload.getD i 0) then
          some (MarkQueueEnt.markClosure (untagClosure (payload.getD i 0))
            (if ro then some (addr + 1 + i) else none))
        else none)) + entMultiset qg := by
  induction idxs generalizing qg with
  | nil => simp
  | cons x rest ih =>
    simp only [List.foldl_cons, List.filterMap_cons]
    by_cases hc : check_in_nonmoving_heap h (payload.getD x 0) = true
    · simp only [hc, if_true]
      rw [ih _ (fun i hi => hok i (List.mem_cons_of_mem x hi))]
      rw [entMultiset_push_closure B h qg _ _ hB (hok x (by simp) hc)]
      rw [← Multiset.cons_coe, Multiset.cons_add, Multiset.add_cons]
    · simp only [Bool.not_eq_true] at hc
      simp only [hc, Bool.false_eq_true, if_false]
      exact ih _ (fun i hi => hok i (List.mem_cons_of_mem x hi))

/-- C7 counterexample: a plain `THUNK_1_0` with one pointer payload field
whose value is heap-allocated outside the nonmoving heap (block descriptor
without `BF_NONMOVING`).  `updateRemembSetPushThunkEager` leaves the update
remembered set completely unchanged — the claimed push of "every pointer
payload field" does not happen for this field. -/
theorem claim_C7_cex :
    updateRemembSetPushThunkEager 2 heapY
        ({ blocks := [[]], is_upd_rem_set := true }, [])
        { ttype := ThunkType.thunk_1_0, srt := none, ptrs := 1 }
        { addr := 8, payload := [16], apFun := 0 } =
      ({ blocks := [[]], is_upd_rem_set := true }, []) ∧
    heapY.heapAlloced 16 = true ∧
    flattenQ (updateRemembSetPushThunkEager 2 heapY
        ({ blocks := [[]], is_upd_rem_set := true }, [])
        { ttype := ThunkType.thunk_1_0, srt := none, ptrs := 1 }
        { addr := 8, payload := [16], apFun := 0 }).1 = [] := by
  refine ⟨?_, rfl, ?_⟩ <;> rfl

/-- C7 (amended): for the six plain `THUNK*` info-table types, the eager
thunk barrier pushes the thunk's SRT closure (when the SRT field is nonzero)
and each pointer payload field *that passes the `check_in_nonmoving_heap`
filter* — fields heap-allocated outside the nonmoving heap are skipped —
onto the worker's update remembered set; thunks of type `THUNK_SELECTOR` or
`BLACKHOLE` are skipped, leaving the set unchanged. -/
theorem claim_C7_pushThunkEager (B : Nat) (h : Heap)
    (qg : MarkQueue × BlockList) (info : ThunkInfo) (t : Thunk)
    (hB : 0 < B)
    (hsrt : ∀ s, info.srt = some s → h.heapAlloced s = true →
      h.bdGen (h.bdescrOf s) = h.oldestGen)
    (hok : ∀ i, i < info.ptrs →
      check_in_nonmoving_heap h (t.payload.getD i 0) = true →
      h.heapAlloced (t.payload.getD i 0) = true →
      h.bdGen (h.bdescrOf (t.payload.getD i 0)) = h.oldestGen) :
    (isPlainThunkType info.ttype = true →
      entMultiset (updateRemembSetPushThunkEager B h qg info t) =
        ↑(eagerFieldPushes h info t) + ↑(eagerSrtPushes h info)
          + entMultiset qg)
    ∧ (info.ttype = ThunkType.thunk_selector →
        updateRemembSetPushThunkEager B h qg info t = qg)
    ∧ (info.ttype = ThunkType.blackhole →
        updateRemembSetPushThunkEager B h qg info t = qg) := by
  refine ⟨?_, ?_, ?_⟩
  · intro hplain
    have hsrtstep : entMultiset (push_thunk_srt B h qg info.srt) =
        ↑(eagerSrtPushes h info) + entMultiset qg := by
      unfold push_thunk_srt eagerSrtPushes
      cases hs : info.srt with
      | none => simp
      | some s =>
        rw [entMultiset_push_closure B h qg s none hB (hsrt s hs)]
        simp [Multiset.cons_coe]
    have hfold := entMultiset_eager_fold B h t.payload t.addr
      (check_in_nonmoving_heap h t.addr) (List.range info.ptrs)
      (push_thunk_srt B h qg info.srt) hB
      (fun i hi => hok i (List.mem_range.mp hi))
    obtain ⟨ty, srt2, ptrs2⟩ := info
    cases ty <;> simp only [isPlainThunkType, Bool.false_eq_true] at hplain <;>
      (simp only [updateRemembSetPushThunkEager]
       rw [hfold, hsrtstep, eagerFieldPushes]
       rw [add_assoc])
  · intro hty
    unfold updateRemembSetPushThunkEager
    rw [hty]
  · intro hty
    unfold updateRemembSetPushThunkEager
    rw [hty]

theorem markLargeObject_marked_self (h : Heap) (ls : LargeObjState)
    (bd : Nat) : (markLargeObject h ls bd).marked bd = true := by
  unfold markLargeObject
  split_ifs with hm
  · exact hm
  · simp

theorem mark_accepted_large_marked (B : Nat) (h : Heap) (st : MarkState)
    (bd pt : Nat) (hlg : h.bdFlagLarge bd = true) :
    (mark_accepted B h st bd pt).large.marked bd = true
    ∨ mark_accepted B h st bd pt = st := by
  unfold mark_accepted
  cases hd : h.closureAt pt <;>
    first
    | (rename_i frames
       by_cases hsm : st.stackMarking pt = h.markEpoch
       · right
         simp [hsm]
       · left
         simp [hsm, mark_epilogue, hlg, qgLift, markLargeObject_marked_self])
    | (left
       simp [mark_epilogue, hlg, qgLift, markLargeObject_marked_self])

theorem mark_accepted_small_marks (B : Nat) (h : Heap) (st : MarkState)
    (bd pt : Nat) (hlg : h.bdFlagLarge bd = false) :
    (mark_accepted B h st bd pt).marks (h.cellOf pt) = h.markEpoch
    ∨ mark_accepted B h st bd pt = st := by
  unfold mark_accepted
  cases hd : h.closureAt pt <;>
    first
    | (rename_i frames
       by_cases hsm : st.stackMarking pt = h.markEpoch
       · right
         simp [hsm]
       · left
         simp [hsm, mark_epilogue, hlg, qgLift])
    | (left
       simp [mark_epilogue, hlg, qgLift])

/-- C3: for a closure pointer in the oldest generation, running
`mark_closure` twice in one cycle produces exactly the post-state of running
it once — the mark bits, large-object lists, `live_words` accumulator (so
each small object is counted at most once) and queue contents all agree —
because the second call returns early: a small object's mark cell now equals
the current epoch, a large object now has `BF_MARKED` set (and every
early-return classification leaves the state untouched, so repeating it
changes nothing). -/
theorem claim_C3_mark_idempotent (B : Nat) (h : Heap) (st : MarkState)
    (p : Nat) (hal : h.heapAlloced (untagClosure p) = true)
    (hgen : h.bdGen (h.bdescrOf (untagClosure p)) = h.oldestGen) :
    (mark_closure B h st p).bind (fun st2 => mark_closure B h st2 p) =
      mark_closure B h st p := by
  have hgen' : ¬ (h.bdGen (h.bdescrOf (untagClosure p)) ≠ h.oldestGen) := by
    simp [hgen]
  by_cases hnm : h.bdFlagNonmoving (h.bdescrOf (untagClosure p)) = true
  · by_cases hlg : h.bdFlagLarge (h.bdescrOf (untagClosure p)) = true
    · by_cases hsw : h.bdFlagSweeping (h.bdescrOf (untagClosure p)) = false
      · have hmc : mark_closure B h st p = some st := by
          unfold mark_closure
          simp [hal, hgen', hnm, hlg, hsw]
        rw [hmc, Option.some_bind, hmc]
      · by_cases hmk : st.large.marked (h.bdescrOf (untagClosure p)) = true
        · have hmc : mark_closure B h st p = some st := by
            unfold mark_closure
            simp [hal, hgen', hnm, hlg, hsw, hmk]
          rw [hmc, Option.some_bind, hmc]
        · have hmc : mark_closure B h st p =
              some (mark_accepted B h st (h.bdescrOf (untagClosure p))
                (h.bdStart (h.bdescrOf (untagClosure p)))) := by
            unfold mark_closure
            simp [hal, hgen', hnm, hlg, hsw, hmk]
          rcases mark_accepted_large_marked B h st
              (h.bdescrOf (untagClosure p))
              (h.bdStart (h.bdescrOf (untagClosure p))) hlg with
            hmarked | hsame
          · rw [hmc, Option.some_bind]
            unfold mark_closure
            simp [hal, hgen', hnm, hlg, hsw, hmarked]
          · have hmc2 : mark_closure B h st p = some st := by
              rw [hmc, hsame]
            rw [hmc2, Option.some_bind, hmc2]
    · have hlgf : h.bdFlagLarge (h.bdescrOf (untagClosure p)) = false := by
        revert hlg
        cases h.bdFlagLarge (h.bdescrOf (untagClosure p)) <;> simp
      by_cases hm1 : st.marks (h.cellOf (untagClosure p)) = h.markEpoch
      · have hmc : mark_closure B h st p = some st := by
          unfold mark_closure
          simp [hal, hgen', hnm, hlgf, hm1]
        rw [hmc, Option.some_bind, hmc]
      · by_cases hm2 : h.nextFreeSnap (untagClosure p) ≤
            h.blockIdx (untagClosure p) ∧
            st.marks (h.cellOf (untagClosure p)) = 0
        · have hmc : mark_closure B h st p = some st := by
            unfold mark_closure
            simp [hal, hgen', hnm, hlgf, hm1, hm2]
          rw [hmc, Option.some_bind, hmc]
        · have hmc : mark_closure B h st p =
              some (mark_accepted B h st (h.bdescrOf (untagClosure p))
                (untagClosure p)) := by
            unfold mark_closure
            simp [hal, hgen', hnm, hlgf, hm1, hm2]
          rcases mark_accepted_small_marks B h st
              (h.bdescrOf (untagClosure p)) (untagClosure p) hlgf with
            hmarked | hsame
          · rw [hmc, Option.some_bind]
            unfold mark_closure
            simp [hal, hgen', hnm, hlgf, hmarked]
          · have hmc2 : mark_closure B h st p = some st := by
              rw [hmc, hsame]
            rw [hmc2, Option.some_bind, hmc2]
  · by_cases hpin : h.bdFlagPinned (h.bdescrOf (untagClosure p)) = true
    · have hmc : mark_closure B h st p = some st := by
        unfold mark_closure
        simp [hal, hgen', hnm, hpin]
      rw [hmc, Option.some_bind, hmc]
    · have hmc : mark_closure B h st p = none := by
        unfold mark_closure
        simp [hal, hgen', hnm, hpin]
      rw [hmc, Option.none_bind]

theorem claim_C3_witness :
    heapA.heapAlloced (untagClosure 16) = true ∧
    heapA.bdGen (heapA.bdescrOf (untagClosure 16)) = heapA.oldestGen ∧
    (mark_closure 2 heapA stA 16).bind
        (fun st2 => mark_closure 2 heapA st2 16) =
      mark_closure 2 heapA stA 16 :=
  ⟨rfl, rfl, claim_C3_mark_idempotent 2 heapA stA 16 rfl rfl⟩

theorem claim_C7_witness :
    0 < 2 ∧
    isPlainThunkType ThunkType.thunk_2_0 = true ∧
    entMultiset (updateRemembSetPushThunkEager 2 heapA
        ({ blocks := [[]], is_upd_rem_set := true }, [])
        { ttype := ThunkType.thunk_2_0, srt := some 48, ptrs := 2 }
        { addr := 8, payload := [16, 17], apFun := 0 }) =
      ↑(eagerFieldPushes heapA
          { ttype := ThunkType.thunk_2_0, srt := some 48, ptrs := 2 }
          { addr := 8, payload := [16, 17], apFun := 0 })
        + ↑(eagerSrtPushes heapA
            { ttype := ThunkType.thunk_2_0, srt := some 48, ptrs := 2 })
        + entMultiset ({ blocks := [[]], is_upd_rem_set := true }, []) :=
  ⟨by decide, rfl,
    (claim_C7_pushThunkEager 2 heapA
      ({ blocks := [[]], is_upd_rem_set := true }, [])
      { ttype := ThunkType.thunk_2_0, srt := some 48, ptrs := 2 }
      { addr := 8, payload := [16, 17], apFun := 0 } (by decide)
      (fun _ _ _ => rfl) (fun _ _ _ _ => rfl)).1 rfl⟩

theorem claim_C8_witness :
    lsC8.largeList.Nodup ∧
    (∀ b, b ∈ lsC8.largeList → b ∉ lsC8.markedLargeList) ∧
    (lsC8.marked 5 = false → 5 ∈ lsC8.largeList) ∧
    lsC8.nLargeBlocks = (lsC8.largeList.map heapA.bdBlocks).sum ∧
    (markLargeObject heapA lsC8 5).nLargeBlocks
        + (markLargeObject heapA lsC8 5).nMarkedLargeBlocks
      = lsC8.nLargeBlocks + lsC8.nMarkedLargeBlocks :=
  ⟨by decide, by simp [lsC8], fun _ => by decide, rfl,
   (claim_C8_largePartition heapA lsC8 5 (by decide) (by simp [lsC8])
      (fun _ => by decide) rfl).2.2.2.1⟩

end NonMovingMark
